import Mathlib

/-!
Verification development for the Universal Login customize core of
`internal/cli/universal_login_customize.go`: the document merger
(`mergeMaps`), the custom-text assembly (`fetchCustomTextWithDefaults`),
the page-data aggregator (`fetchPageData`), the persister (`persistData`)
and the WebSocket session handler (`webSocketHandler.ServeHTTP`).

JSON documents (Go `map[string]interface{}` values decoded from JSON) are
embedded as the inductive type `Json`; Go maps are represented as
association lists with distinct keys (Go maps cannot hold duplicate keys;
where a statement needs this, it carries an explicit no-duplicate-keys
hypothesis).  Remote gateway calls (the auth0 management SDK, treated by
the code as an opaque RPC dependency) are embedded as oracle records
holding each call's reply.
-/

/-- Errors returned by gateway calls and by JSON decoding. -/
def GErr := String
deriving DecidableEq

/-- A JSON value as decoded into a Go `interface{}`: `null`, booleans,
numbers, strings, arrays and string-keyed objects.  Objects are modelled
as association lists; numbers as integers (no claim depends on
non-integral numerics). -/
inductive Json where
  | null : Json
  | bool : Bool → Json
  | num : Int → Json
  | str : String → Json
  | arr : List Json → Json
  | obj : List (String × Json) → Json

/-- First-match lookup in an association list, i.e. Go's `map2[key]`
(association lists standing for Go maps hold each key at most once). -/
def lookupJ (m : List (String × Json)) (k : String) : Option Json :=
  match m with
  | [] => none
  | (k1, v) :: rest => if k1 = k then some v else lookupJ rest k

/-- `oOr o1 o2` is `o1` unless it is `none`, in which case it is `o2`. -/
def oOr (o1 o2 : Option Json) : Option Json :=
  match o1 with
  | some v => some v
  | none => o2

/-- The keys of an object, in representation order. -/
def keysJ (m : List (String × Json)) : List String :=
  m.map Prod.fst

/-- Whether `k` occurs among the keys of `m`. -/
def keyMem (k : String) (m : List (String × Json)) : Bool :=
  match m with
  | [] => false
  | (k1, _) :: rest => k1 = k || keyMem k rest

mutual

/-- Well-formedness of a JSON value standing for decoded Go data: every
object inside it has pairwise-distinct keys (automatic for Go maps). -/
def wfVal : Json → Bool
  | Json.obj m => wfList m
  | Json.arr l => wfArr l
  | _ => true

/-- Well-formedness of an array's elements. -/
def wfArr : List Json → Bool
  | [] => true
  | v :: rest => wfVal v && wfArr rest

/-- Well-formedness of an object: distinct keys at this level and
well-formed values below. -/
def wfList : List (String × Json) → Bool
  | [] => true
  | (k, v) :: rest => !keyMem k rest && wfVal v && wfList rest

end

/-- The second `for` loop of `mergeMaps`: append each entry of `m2` whose
key is not already present in the accumulated result. -/
def addMissing (merged : List (String × Json)) : List (String × Json) → List (String × Json)
  | [] => merged
  | (k, v) :: rest =>
    if (lookupJ merged k).isSome then addMissing merged rest
    else addMissing (merged ++ [(k, v)]) rest

mutual

/-- Embedding of `mergeMaps` (universal_login_customize.go:346-375): the
first loop walks `map1`'s entries (`mergeLoop`), the second adds the
entries of `map2` whose key is still missing (`addMissing`). -/
def mergeMaps (m1 m2 : List (String × Json)) : List (String × Json) :=
  addMissing (mergeLoop m1 m2) m2
termination_by (sizeOf m1, 1)

/-- The first `for` loop of `mergeMaps`: for an entry whose value is an
object, merge recursively when `map2` also holds an object there (dropping
the key when the merged sub-object is empty), otherwise keep `map1`'s
object unless it is empty; for a non-object value, `map2`'s value wins
when present. -/
def mergeLoop : List (String × Json) → List (String × Json) → List (String × Json)
  | [], _ => []
  | (key, Json.obj subMap) :: rest, m2 =>
    (match lookupJ m2 key with
     | some (Json.obj subMap2) =>
       let m := mergeMaps subMap subMap2
       if m.isEmpty then [] else [(key, Json.obj m)]
     | _ =>
       if subMap.isEmpty then [] else [(key, Json.obj subMap)]) ++ mergeLoop rest m2
  | (key, value) :: rest, m2 =>
    (match lookupJ m2 key with
     | some value2 => [(key, value2)]
     | none => [(key, value)]) ++ mergeLoop rest m2
termination_by m1 _ => (sizeOf m1, 0)

end

/-- Whether a JSON value is a scalar (a leaf when stored under a key):
anything that is not an object.  Mirrors the failed
`value.(map[string]interface{})` type assertion in `mergeMaps`. -/
def isScalar : Json → Bool
  | Json.obj _ => false
  | _ => true

/-- Follow a non-empty key path into nested objects; `some v` when the
path denotes a value. -/
def getPath (m : List (String × Json)) : List String → Option Json
  | [] => none
  | [k] => lookupJ m k
  | k :: p =>
    match lookupJ m k with
    | some (Json.obj s) => getPath s p
    | _ => none

/-- The leaves of a document: every path that ends in a scalar value,
paired with that value.  An empty object has no leaves. -/
def leaves : List (String × Json) → List (List String × Json)
  | [] => []
  | (k, Json.obj s) :: rest => (leaves s).map (fun pv => (k :: pv.1, pv.2)) ++ leaves rest
  | (k, v) :: rest => ([k], v) :: leaves rest

/-- Leaf-path disjointness of two documents: no key path carries a scalar
in both. -/
def disjointLeaves (m1 m2 : List (String × Json)) : Bool :=
  (leaves m1).all (fun pv => !(leaves m2).any (fun qw => pv.1 == qw.1))

/-- Shape compatibility of two documents: no key (recursively) maps to an
object in one of them and to a present non-object in the other. -/
def compat : List (String × Json) → List (String × Json) → Bool
  | [], _ => true
  | (k, Json.obj s1) :: rest, m2 =>
    (match lookupJ m2 k with
     | some (Json.obj s2) => compat s1 s2
     | some _ => false
     | none => true) && compat rest m2
  | (k, _) :: rest, m2 =>
    (match lookupJ m2 k with
     | some (Json.obj _) => false
     | _ => true) && compat rest m2

/-- The opening-brace character of JSON object syntax. -/
def obraceC : Char := Char.ofNat 123

/-- The closing-brace character of JSON object syntax. -/
def cbraceC : Char := Char.ofNat 125

/-- The serialized empty JSON object, the two-character brace pair that
`persistData` probes for with `strings.Contains`. -/
def emptyObjSentinel : String := String.mk [obraceC, cbraceC]

/-- Escaping of one character inside a JSON string literal: backslash and
double quote are escaped; other characters pass through.  (Go additionally
`\u`-escapes control and HTML characters; no value examined here contains
any.) -/
def escChar (c : Char) : List Char :=
  if c = Char.ofNat 34 then [Char.ofNat 92, Char.ofNat 34]
  else if c = Char.ofNat 92 then [Char.ofNat 92, Char.ofNat 92]
  else [c]

/-- A JSON string literal: quoted, characters escaped.  Brace characters
inside strings are NOT escaped, exactly as in Go's `json.Marshal`. -/
def serStr (s : String) : String :=
  String.mk ([Char.ofNat 34] ++ s.toList.flatMap escChar ++ [Char.ofNat 34])

mutual

/-- Model of Go's `json.Marshal` on decoded JSON values, as used on the
custom-text entries in `persistData` (universal_login_customize.go:484).
Go serializes a `map[string]interface{}` with its keys in sorted order;
since association lists here stand for Go maps, an object's list order
stands for that sorted order. -/
def ser : Json → String
  | Json.null => "null"
  | Json.bool true => "true"
  | Json.bool false => "false"
  | Json.num n => toString n
  | Json.str s => serStr s
  | Json.arr l => "[" ++ serArr l ++ "]"
  | Json.obj m => String.mk [obraceC] ++ serObj m ++ String.mk [cbraceC]

/-- Comma-separated serialization of array elements. -/
def serArr : List Json → String
  | [] => ""
  | [v] => ser v
  | v :: v2 :: rest => ser v ++ "," ++ serArr (v2 :: rest)

/-- Comma-separated serialization of object entries. -/
def serObj : List (String × Json) → String
  | [] => ""
  | [(k, v)] => serStr k ++ ":" ++ ser v
  | (k, v) :: e2 :: rest => serStr k ++ ":" ++ ser v ++ "," ++ serObj (e2 :: rest)

end

/-- Whether `pat` occurs at the head of `s`. -/
def listStartsWith : List Char → List Char → Bool
  | [], _ => true
  | _ :: _, [] => false
  | a :: as, b :: bs => a == b && listStartsWith as bs

/-- Whether `pat` occurs contiguously anywhere in `s`. -/
def listInfix (pat : List Char) : List Char → Bool
  | [] => pat.isEmpty
  | c :: rest => listStartsWith pat (c :: rest) || listInfix pat rest

/-- Model of Go's `strings.Contains s pat`. -/
def strContains (s pat : String) : Bool :=
  listInfix pat.toList s.toList

/-- What `persistData` does with one custom-text entry. -/
inductive EntryAction where
  | skip : EntryAction
  | write : List (String × Json) → EntryAction
  | decodeFailure : EntryAction

/-- The custom-text entry decision of `persistData`
(universal_login_customize.go:483-503): marshal the entry; skip it when
the serialized form CONTAINS the serialized empty object as a substring;
otherwise unmarshal into a map (an error for non-object, non-null values)
and skip when the resulting map is empty; otherwise write the map. -/
def entryAction (v : Json) : EntryAction :=
  if strContains (ser v) emptyObjSentinel then EntryAction.skip
  else
    match v with
    | Json.obj m => if m.length = 0 then EntryAction.skip else EntryAction.write m
    | Json.null => EntryAction.skip
    | _ => EntryAction.decodeFailure

/-- `management.BrandingThemeBorders` (fields used by the default theme). -/
structure BrandingThemeBorders where
  buttonBorderRadius : ℚ
  buttonBorderWeight : ℚ
  buttonsStyle : String
  inputBorderRadius : ℚ
  inputBorderWeight : ℚ
  inputsStyle : String
  showWidgetShadow : Bool
  widgetBorderWeight : ℚ
  widgetCornerRadius : ℚ
deriving DecidableEq

/-- `management.BrandingThemeColors`; the two `*string` fields are
optional. -/
structure BrandingThemeColors where
  baseFocusColor : Option String
  baseHoverColor : Option String
  bodyText : String
  error : String
  header : String
  icons : String
  inputBackground : String
  inputBorder : String
  inputFilledText : String
  inputLabelsPlaceholders : String
  linksFocusedComponents : String
  primaryButton : String
  primaryButtonLabel : String
  secondaryButtonBorder : String
  secondaryButtonLabel : String
  success : String
  widgetBackground : String
  widgetBorder : String
deriving DecidableEq

/-- `management.BrandingThemeText`. -/
structure BrandingThemeText where
  bold : Bool
  size : ℚ
deriving DecidableEq

/-- `management.BrandingThemeFonts`. -/
structure BrandingThemeFonts where
  bodyText : BrandingThemeText
  buttonsText : BrandingThemeText
  fontURL : String
  inputLabels : BrandingThemeText
  links : BrandingThemeText
  linksStyle : String
  referenceTextSize : ℚ
  subtitle : BrandingThemeText
  title : BrandingThemeText
deriving DecidableEq

/-- `management.BrandingThemePageBackground`. -/
structure BrandingThemePageBackground where
  backgroundColor : String
  backgroundImageURL : String
  pageLayout : String
deriving DecidableEq

/-- `management.BrandingThemeWidget`. -/
structure BrandingThemeWidget where
  headerTextAlignment : String
  logoHeight : ℚ
  logoPosition : String
  logoURL : String
  socialButtonsLayout : String
deriving DecidableEq

/-- `management.BrandingTheme`: the remote-assigned identity (`ID`,
a `*string`) plus the visual descriptor groups. -/
structure BrandingTheme where
  id : Option String
  borders : BrandingThemeBorders
  colors : BrandingThemeColors
  fonts : BrandingThemeFonts
  pageBackground : BrandingThemePageBackground
  widget : BrandingThemeWidget
deriving DecidableEq

/-- The hard-coded fallback `management.BrandingTheme` literal built in
`fetchBrandingThemeOrUseEmpty` (universal_login_customize.go:184-257). -/
def defaultTheme : BrandingTheme where
  id := none
  borders :=
    { buttonBorderRadius := 3
      buttonBorderWeight := 1
      buttonsStyle := "rounded"
      inputBorderRadius := 3
      inputBorderWeight := 1
      inputsStyle := "rounded"
      showWidgetShadow := true
      widgetBorderWeight := 0
      widgetCornerRadius := 5 }
  colors :=
    { baseFocusColor := some "#635dff"
      baseHoverColor := some "#000000"
      bodyText := "#1e212a"
      error := "#d03c38"
      header := "#1e212a"
      icons := "#65676e"
      inputBackground := "#ffffff"
      inputBorder := "#c9cace"
      inputFilledText := "#000000"
      inputLabelsPlaceholders := "#65676e"
      linksFocusedComponents := "#635dff"
      primaryButton := "#635dff"
      primaryButtonLabel := "#ffffff"
      secondaryButtonBorder := "#c9cace"
      secondaryButtonLabel := "#1e212a"
      success := "#13a688"
      widgetBackground := "#ffffff"
      widgetBorder := "#c9cace" }
  fonts :=
    { bodyText := { bold := false, size := 87.5 }
      buttonsText := { bold := false, size := 100 }
      fontURL := ""
      inputLabels := { bold := false, size := 100 }
      links := { bold := true, size := 87.5 }
      linksStyle := "normal"
      referenceTextSize := 16
      subtitle := { bold := false, size := 87.5 }
      title := { bold := false, size := 150 } }
  pageBackground :=
    { backgroundColor := "#000000"
      backgroundImageURL := ""
      pageLayout := "center" }
  widget :=
    { headerTextAlignment := "center"
      logoHeight := 52
      logoPosition := "center"
      logoURL := ""
      socialButtonsLayout := "bottom" }

/-- Embedding of `fetchBrandingThemeOrUseEmpty`
(universal_login_customize.go:181-261) over the reply of the
`api.BrandingTheme.Default` read: the read's value on success, the
hard-coded default theme on any read failure.  This function itself never
fails. -/
def fetchBrandingThemeOrUseEmpty (themeRead : Except GErr BrandingTheme) : BrandingTheme :=
  match themeRead with
  | Except.ok t => t
  | Except.error _ => defaultTheme

/-- `management.BrandingUniversalLogin`: the template with its raw markup
body (`Body *string`). -/
structure BrandingUniversalLogin where
  body : Option String
deriving DecidableEq

/-- `management.Branding` as used here: the logo URL (`LogoURL *string`,
cleared before write-back) plus the rest of the settings payload, opaque
to this code. -/
structure Branding where
  logoURL : Option String
  rest : String
deriving DecidableEq

/-- `management.Prompt`: the authentication-profile payload, opaque to
this code (it is read and written back whole). -/
structure Prompt where
  raw : String
deriving DecidableEq

/-- `management.Tenant` as read by the aggregator: optional friendly name
and enabled locales (their `Get*` accessors default absent values). -/
structure Tenant where
  friendlyName : Option String
  enabledLocales : Option (List String)
deriving DecidableEq

/-- `tenantData` (universal_login_customize.go:111-115). -/
structure tenantData where
  friendlyName : String
  enabledLocales : List String
  domain : String
deriving DecidableEq

/-- `pageData` (universal_login_customize.go:101-109): the composite
document exchanged with the UI.  The four `*`-typed sub-objects are
options: `none` is Go's nil pointer. -/
structure pageData where
  connected : Bool
  authenticationProfile : Option Prompt
  branding : Option Branding
  templates : Option BrandingUniversalLogin
  themes : Option BrandingTheme
  tenant : Option tenantData
  customText : List (String × Json)

/-- The reply to the bulk default-text HTTP GET: status code and the
result of decoding the body as `[]map[string]interface{}`. -/
structure HttpResponse where
  statusCode : Nat
  decodeBody : Except GErr (List (List (String × Json)))

/-- Gateway replies consumed by `fetchCustomTextWithDefaults`: the
per-prompt `api.Prompt.CustomText` read, the request-construction step,
and the CDN transport. -/
structure CustomTextResponses where
  promptText : String → Except GErr Json
  newRequest : Option GErr
  doResult : Except GErr HttpResponse

/-- The enabled prompt-area list
(universal_login_customize.go:264-271); all areas but `login` are
commented out in the source. -/
def availablePrompts : List String := ["login"]

/-- The first loop of `fetchCustomTextWithDefaults`: read each enabled
area's current text, aborting on the first failure. -/
def collectPromptText (o : CustomTextResponses) :
    List String → List (String × Json) → Except GErr (List (String × Json))
  | [], acc => Except.ok acc
  | p :: rest, acc =>
    match o.promptText p with
    | Except.error e => Except.error e
    | Except.ok t => collectPromptText o rest (acc ++ [(p, t)])

/-- Go map assignment `m[k] = v`: overwrite if present, else add. -/
def mapSet (m : List (String × Json)) (k : String) (v : Json) : List (String × Json) :=
  match m with
  | [] => [(k, v)]
  | (k1, w) :: rest => if k1 = k then (k1, v) :: rest else (k1, w) :: mapSet rest k v

/-- The extraction loop over the decoded default bundle
(universal_login_customize.go:309-341): for each map in the slice, keep
only its `login` entry (everything else is commented out); a later map's
`login` entry overwrites an earlier one's. -/
def extractDefaultText (l : List (List (String × Json))) : List (String × Json) :=
  l.foldl
    (fun acc value =>
      match lookupJ value "login" with
      | some innerValue => mapSet acc "login" innerValue
      | none => acc)
    []

/-- Embedding of `fetchCustomTextWithDefaults`
(universal_login_customize.go:263-344).  Mirrors the Go double return
`(map, error)`: the first component is the map value (`none` is Go's nil
map), the second the error value.  Note the three fallible bulk-fetch
steps (`NewRequest`, `Do`, JSON decode) each `return customText, err`
with a NON-nil `err`, while the bad-HTTP-status branch returns
`customText, err` at a point where `err` is nil. -/
def fetchCustomTextWithDefaults (o : CustomTextResponses) :
    Option (List (String × Json)) × Option GErr :=
  match collectPromptText o availablePrompts [] with
  | Except.error e => (none, some e)
  | Except.ok customText =>
    match o.newRequest with
    | some e => (some customText, some e)
    | none =>
      match o.doResult with
      | Except.error e => (some customText, some e)
      | Except.ok response =>
        if 400 ≤ response.statusCode then (some customText, none)
        else
          match response.decodeBody with
          | Except.error e => (some customText, some e)
          | Except.ok defaultAllPromptsText =>
            (some (mergeMaps (extractDefaultText defaultAllPromptsText) customText), none)

/-- Gateway replies consumed by `fetchPageData`'s seven concurrent
operations.  `ensureCustomDomainIsEnabled` lives elsewhere in the
repository and is abstracted by its returned error;
`fetchBrandingSettingsOrUseDefaults` and `fetchBrandingTemplateOrUseEmpty`
also live elsewhere and, as their call sites show
(universal_login_customize.go:132,138), return only a value and can
contribute no error, so they are abstracted by their returned values. -/
structure FetchResponses where
  customDomainCheck : Option GErr
  promptRead : Except GErr Prompt
  brandingValue : Branding
  templateValue : BrandingUniversalLogin
  themeRead : Except GErr BrandingTheme
  tenantRead : Except GErr Tenant
  ct : CustomTextResponses

/-- Embedding of `fetchPageData` (universal_login_customize.go:117-179).
All seven errgroup goroutines run; `group.Wait` returns the first error
observed, modelled as the first error in goroutine launch order.  The
branding-settings, template and theme goroutines always return nil
(universal_login_customize.go:130-146), so only the custom-domain check,
the profile read, the tenant read and the custom-text assembly can abort
the aggregation. -/
def fetchPageData (o : FetchResponses) (tenantDomain : String) : Except GErr pageData :=
  match o.customDomainCheck with
  | some e => Except.error e
  | none =>
    match o.promptRead with
    | Except.error e => Except.error e
    | Except.ok authenticationProfile =>
      match o.tenantRead with
      | Except.error e => Except.error e
      | Except.ok tenant =>
        match fetchCustomTextWithDefaults o.ct with
        | (_, some e) => Except.error e
        | (customText, none) =>
          Except.ok
            { connected := true
              authenticationProfile := some authenticationProfile
              branding := some o.brandingValue
              templates := some o.templateValue
              themes := some (fetchBrandingThemeOrUseEmpty o.themeRead)
              tenant := some
                { friendlyName := tenant.friendlyName.getD ""
                  enabledLocales := tenant.enabledLocales.getD []
                  domain := tenantDomain }
              customText := customText.getD [] }

/-- A write issued against the remote gateway by `persistData`.  There is
no compensating/rollback operation anywhere in the code, so none exists
here. -/
inductive WriteEffect where
  | setUniversalLogin : Option String → WriteEffect
  | themeCreate : BrandingTheme → WriteEffect
  | themeUpdate : String → BrandingTheme → WriteEffect
  | promptUpdate : Option Prompt → WriteEffect
  | brandingUpdate : Branding → WriteEffect
  | setCustomText : String → String → List (String × Json) → WriteEffect

/-- Outcome of a `persistData` call: a runtime nil-pointer panic naming
the dereferenced field, or completion with the returned error value and
the trace of gateway writes issued. -/
inductive PersistOutcome where
  | panicked : String → PersistOutcome
  | completed : Option GErr → List WriteEffect → PersistOutcome

/-- Gateway replies consumed by `persistData`'s sub-writes. -/
structure PersistResponses where
  templateWrite : Option GErr
  themeDefault : Except GErr BrandingTheme
  themeCreate : Option GErr
  themeUpdate : Option GErr
  promptUpdate : Option GErr
  brandingUpdate : Option GErr
  customTextWrite : String → Option GErr

/-- The template goroutine (universal_login_customize.go:452-458):
`SetUniversalLogin` on a fresh value holding the document's template
body. -/
def templateTask (o : PersistResponses) (t : BrandingUniversalLogin) :
    Option GErr × List WriteEffect :=
  (o.templateWrite, [WriteEffect.setUniversalLogin t.body])

/-- The theme goroutine (universal_login_customize.go:460-469): clear the
identity field, then create a new theme if no default exists, else update
the existing record by its identity (`GetID` defaults a nil identity to
the empty string). -/
def themeTask (o : PersistResponses) (th : BrandingTheme) :
    Option GErr × List WriteEffect :=
  let cleared := { th with id := none }
  match o.themeDefault with
  | Except.error _ => (o.themeCreate, [WriteEffect.themeCreate cleared])
  | Except.ok existing =>
    (o.themeUpdate, [WriteEffect.themeUpdate (existing.id.getD "") cleared])

/-- The profile goroutine (universal_login_customize.go:471-473): the
pointer is passed to the gateway as-is, without dereference. -/
def promptTask (o : PersistResponses) (p : Option Prompt) :
    Option GErr × List WriteEffect :=
  (o.promptUpdate, [WriteEffect.promptUpdate p])

/-- The branding goroutine (universal_login_customize.go:475-478): clear
the logo URL, then update. -/
def brandingTask (o : PersistResponses) (b : Branding) :
    Option GErr × List WriteEffect :=
  (o.brandingUpdate, [WriteEffect.brandingUpdate { b with logoURL := none }])

/-- One custom-text goroutine (universal_login_customize.go:480-505):
apply the entry decision; a write goes to `SetCustomText` with the fixed
locale `en`. -/
def customTextTask (o : PersistResponses) (kv : String × Json) :
    Option GErr × List WriteEffect :=
  match entryAction kv.2 with
  | EntryAction.skip => (none, [])
  | EntryAction.decodeFailure => (some "json: cannot unmarshal into map", [])
  | EntryAction.write m => (o.customTextWrite kv.1, [WriteEffect.setCustomText kv.1 "en" m])

/-- First non-nil error in a list of goroutine results, i.e. the error
`errgroup.Wait` reports. -/
def firstErrL : List (Option GErr) → Option GErr
  | [] => none
  | some e :: _ => some e
  | none :: rest => firstErrL rest

/-- Embedding of `persistData` (universal_login_customize.go:449-508).
All goroutines always run to completion (none consults the cancelled
context), so the trace is the concatenation of every task's writes and
the returned error is the first failure across them, modelled in
goroutine launch order.  `data.Templates.Body`, `data.Themes.ID = nil`
and `data.Branding.LogoURL = nil` dereference their pointer with no nil
guard: a document missing one of these three sub-objects panics (the
panicking goroutines are checked in launch order). -/
def persistData (o : PersistResponses) (data : pageData) : PersistOutcome :=
  match data.templates with
  | none => PersistOutcome.panicked "Templates"
  | some t =>
    match data.themes with
    | none => PersistOutcome.panicked "Themes"
    | some th =>
      match data.branding with
      | none => PersistOutcome.panicked "Branding"
      | some b =>
        let tasks :=
          [templateTask o t, themeTask o th, promptTask o data.authenticationProfile,
            brandingTask o b] ++ data.customText.map (customTextTask o)
        PersistOutcome.completed (firstErrL (tasks.map Prod.fst)) (tasks.flatMap Prod.snd)

/-- User-visible / lifecycle events of the WebSocket receive loop, in
order of occurrence. -/
inductive SessionEvent where
  | closedConn : SessionEvent
  | closeFailed : GErr → SessionEvent
  | disconnectNotice : SessionEvent
  | cancelled : SessionEvent
  | persistInvoked : pageData → SessionEvent
  | persistedNotice : SessionEvent
  | persistFailed : GErr → SessionEvent
  | readFailed : GErr → SessionEvent
  | panicked : String → SessionEvent

/-- Replies consumed by one pass of the receive loop. -/
structure HandlerOracle where
  persist : PersistResponses
  closeResult : Option GErr

/-- Embedding of the receive loop of `webSocketHandler.ServeHTTP`
(universal_login_customize.go:416-446), driven by the successive results
of `connection.ReadJSON`.  A received document whose `connected` flag is
false triggers the disconnect branch (close, notice, cancel) — and then,
since that branch does not return, the loop FALLS THROUGH to the
persistence step with that same document. -/
def serveLoop (o : HandlerOracle) : List (Except GErr pageData) → List SessionEvent
  | [] => []
  | Except.error e :: _ => [SessionEvent.readFailed e, SessionEvent.cancelled]
  | Except.ok msg :: rest =>
    (if msg.connected then []
     else
       SessionEvent.closedConn ::
         (match o.closeResult with
          | some ce => [SessionEvent.closeFailed ce, SessionEvent.cancelled]
          | none => []) ++ [SessionEvent.disconnectNotice, SessionEvent.cancelled]) ++
      SessionEvent.persistInvoked msg ::
        (match persistData o.persist msg with
         | PersistOutcome.panicked site => [SessionEvent.panicked site]
         | PersistOutcome.completed (some e) _ =>
           [SessionEvent.persistFailed e, SessionEvent.cancelled]
         | PersistOutcome.completed none _ =>
           SessionEvent.persistedNotice :: serveLoop o rest)

/-- A parsed URL, reduced to what `u.String()` rebuilds for an
origin-shaped input: the (lowercased) scheme and everything after the
`://` separator. -/
structure ParsedURL where
  scheme : String
  rest : String
deriving DecidableEq

/-- Valid first character of a URL scheme. -/
def isSchemeStart (c : Char) : Bool := c.isAlpha

/-- Valid non-first character of a URL scheme. -/
def isSchemeChar (c : Char) : Bool :=
  c.isAlpha || c.isDigit || c = '+' || c = '-' || c = '.'

/-- Whether a character list is a well-formed URL scheme. -/
def validScheme : List Char → Bool
  | [] => false
  | c :: cs => isSchemeStart c && cs.all isSchemeChar

/-- Split a character list at the first `://`. -/
def splitScheme : List Char → Option (List Char × List Char)
  | [] => none
  | ':' :: '/' :: '/' :: rest => some ([], rest)
  | c :: cs =>
    match splitScheme cs with
    | some (sch, rest) => some (c :: sch, rest)
    | none => none

/-- Whether the part after the scheme is acceptable: no spaces or control
characters (Go's `url.Parse` rejects these). -/
def hostOk (cs : List Char) : Bool :=
  cs.all (fun c => !(c = ' ' || c.toNat < 32))

/-- Model of Go's `net/url.Parse` composed with `URL.String()` for
origin-shaped inputs: a `scheme://host` input parses when the scheme is
well-formed and the remainder is clean, with the scheme lowercased; an
input without `://` parses as an opaque reference that `String()` echoes
back; inputs with spaces or control characters fail to parse. -/
def urlParse (s : String) : Option ParsedURL :=
  match splitScheme s.toList with
  | some (sch, rest) =>
    if validScheme sch && hostOk rest then
      some { scheme := String.mk (sch.map Char.toLower), rest := String.mk rest }
    else none
  | none => if hostOk s.toList then some { scheme := "", rest := s } else none

/-- The `String()` reconstruction of a parsed URL. -/
def urlString (u : ParsedURL) : String :=
  if u.scheme = "" then u.rest else u.scheme ++ "://" ++ u.rest

/-- The fixed local UI origin the upgrade handshake compares against. -/
def expectedOrigin : String := "http://localhost:5173"

/-- Embedding of the `CheckOrigin` callback of the upgrader
(universal_login_customize.go:388-399): accept when the `Origin` header
list is empty; otherwise parse the first value, reject on parse failure,
and accept exactly when the reconstructed URL string equals the expected
origin. -/
def checkOrigin (originHeader : List String) : Bool :=
  match originHeader with
  | [] => true
  | o :: _ =>
    match urlParse o with
    | none => false
    | some u => urlString u == expectedOrigin

/-- What the first loop of `mergeMaps` yields for one key, as a function
of the two inputs' values there (`none`: the key is dropped). -/
def loopAt : Option Json → Option Json → Option Json
  | some (Json.obj s1), some (Json.obj s2) =>
    if (mergeMaps s1 s2).isEmpty then none else some (Json.obj (mergeMaps s1 s2))
  | some (Json.obj s1), _ => if s1.isEmpty then none else some (Json.obj s1)
  | some _, some v2 => some v2
  | some v, none => some v
  | none, _ => none

/-- What `mergeMaps` yields for one key, as a function of the two inputs'
values there: the first loop's result, with the second loop re-adding
`map2`'s original value whenever the first loop left the key absent. -/
def mergedAt (o1 o2 : Option Json) : Option Json :=
  oOr (loopAt o1 o2) o2

@[simp] theorem oOr_none_right (o : Option Json) : oOr o none = o := by
  cases o <;> rfl

@[simp] theorem oOr_some_left (v : Json) (o : Option Json) : oOr (some v) o = some v := rfl

@[simp] theorem oOr_none_left (o : Option Json) : oOr none o = o := rfl

theorem lookupJ_append (a b : List (String × Json)) (k : String) :
    lookupJ (a ++ b) k = oOr (lookupJ a k) (lookupJ b k) := by
  induction a with
  | nil => simp [lookupJ, oOr]
  | cons e rest ih =>
    obtain ⟨k1, v⟩ := e
    by_cases hk : k1 = k <;> simp [lookupJ, hk, oOr, ih]

theorem lookupJ_addMissing (m2 : List (String × Json)) :
    ∀ merged k, lookupJ (addMissing merged m2) k = oOr (lookupJ merged k) (lookupJ m2 k) := by
  induction m2 with
  | nil => intro merged k; simp [addMissing, lookupJ]
  | cons e rest ih =>
    intro merged k
    obtain ⟨k2, v2⟩ := e
    by_cases hp : (lookupJ merged k2).isSome
    · rw [addMissing, if_pos hp, ih]
      by_cases hk : k2 = k
      · subst hk
        obtain ⟨w, hw⟩ := Option.isSome_iff_exists.mp hp
        simp [lookupJ, hw]
      · simp [lookupJ, hk]
    · rw [addMissing, if_neg hp, ih, lookupJ_append]
      rw [Option.not_isSome_iff_eq_none] at hp
      by_cases hk : k2 = k
      · subst hk
        simp [lookupJ, hp]
      · simp [lookupJ, hk]

theorem keyMem_false_lookupJ {k : String} {m : List (String × Json)}
    (h : keyMem k m = false) : lookupJ m k = none := by
  induction m with
  | nil => simp [lookupJ]
  | cons e rest ih =>
    obtain ⟨k1, v⟩ := e
    simp only [keyMem, Bool.or_eq_false_iff, decide_eq_false_iff_not] at h
    simp [lookupJ, h.1, ih h.2]

theorem lookupJ_same_key {k k1 : String} (hne : k1 ≠ k) :
    ∀ l : List (String × Json), (∀ e ∈ l, e.1 = k1) → lookupJ l k = none := by
  intro l
  induction l with
  | nil => intro _; rfl
  | cons e rest ih =>
    intro hall
    have h1 : e.1 = k1 := hall e (List.mem_cons_self e rest)
    obtain ⟨ke, ve⟩ := e
    simp only at h1
    subst h1
    simp [lookupJ, hne, ih fun e he => hall e (List.mem_cons_of_mem _ he)]

theorem mergeLoop_cons_keys (k1 : String) (v : Json) (m2 : List (String × Json)) :
    ∃ entry : List (String × Json),
      (∀ e ∈ entry, e.1 = k1) ∧
        ∀ rest, mergeLoop ((k1, v) :: rest) m2 = entry ++ mergeLoop rest m2 := by
  cases v with
  | obj subMap =>
    refine ⟨(match lookupJ m2 k1 with
      | some (Json.obj subMap2) =>
        if (mergeMaps subMap subMap2).isEmpty then []
        else [(k1, Json.obj (mergeMaps subMap subMap2))]
      | _ => if subMap.isEmpty then [] else [(k1, Json.obj subMap)]), ?_, ?_⟩
    · cases hm : lookupJ m2 k1 with
      | none => split <;> simp
      | some v2 => cases v2 <;> simp only [] <;> split <;> simp
    · intro rest
      rw [mergeLoop]
  | null =>
    refine ⟨(match lookupJ m2 k1 with
      | some value2 => [(k1, value2)]
      | none => [(k1, Json.null)]), ?_, fun rest => by simp [mergeLoop]⟩
    cases hm : lookupJ m2 k1 <;> simp [hm]
  | bool b =>
    refine ⟨(match lookupJ m2 k1 with
      | some value2 => [(k1, value2)]
      | none => [(k1, Json.bool b)]), ?_, fun rest => by simp [mergeLoop]⟩
    cases hm : lookupJ m2 k1 <;> simp [hm]
  | num n =>
    refine ⟨(match lookupJ m2 k1 with
      | some value2 => [(k1, value2)]
      | none => [(k1, Json.num n)]), ?_, fun rest => by simp [mergeLoop]⟩
    cases hm : lookupJ m2 k1 <;> simp [hm]
  | str s =>
    refine ⟨(match lookupJ m2 k1 with
      | some value2 => [(k1, value2)]
      | none => [(k1, Json.str s)]), ?_, fun rest => by simp [mergeLoop]⟩
    cases hm : lookupJ m2 k1 <;> simp [hm]
  | arr l =>
    refine ⟨(match lookupJ m2 k1 with
      | some value2 => [(k1, value2)]
      | none => [(k1, Json.arr l)]), ?_, fun rest => by simp [mergeLoop]⟩
    cases hm : lookupJ m2 k1 <;> simp [hm]

theorem mergeLoop_lookup_none {k : String} {m1 : List (String × Json)}
    (m2 : List (String × Json)) (h : keyMem k m1 = false) :
    lookupJ (mergeLoop m1 m2) k = none := by
  induction m1 with
  | nil => simp [mergeLoop, lookupJ]
  | cons e rest ih =>
    obtain ⟨k1, v⟩ := e
    simp only [keyMem, Bool.or_eq_false_iff, decide_eq_false_iff_not] at h
    obtain ⟨entry, hkeys, heq⟩ := mergeLoop_cons_keys k1 v m2
    rw [heq rest, lookupJ_append, lookupJ_same_key h.1 entry hkeys, ih h.2]
    rfl

theorem mergeLoop_lookup (m2 : List (String × Json)) :
    ∀ m1 : List (String × Json), wfList m1 = true → ∀ k,
      lookupJ (mergeLoop m1 m2) k = loopAt (lookupJ m1 k) (lookupJ m2 k) := by
  intro m1
  induction m1 with
  | nil => intro _ k; simp [mergeLoop, lookupJ, loopAt]
  | cons e rest ih =>
    intro hwf k
    obtain ⟨k1, v⟩ := e
    simp only [wfList, Bool.and_eq_true, Bool.not_eq_true'] at hwf
    obtain ⟨⟨hnd, _⟩, hrest⟩ := hwf
    by_cases hk : k1 = k
    · subst hk
      have hnone : lookupJ (mergeLoop rest m2) k1 = none := mergeLoop_lookup_none m2 hnd
      cases v with
      | obj subMap =>
        rw [mergeLoop, lookupJ_append]
        cases hm : lookupJ m2 k1 with
        | none =>
          by_cases hs : subMap.isEmpty <;>
            simp [hs, hm, lookupJ, hnone, loopAt]
        | some v2 =>
          cases v2 with
          | obj subMap2 =>
            by_cases hs : (mergeMaps subMap subMap2).isEmpty <;>
              simp [hs, hm, lookupJ, hnone, loopAt]
          | null => by_cases hs : subMap.isEmpty <;> simp [hs, hm, lookupJ, hnone, loopAt]
          | bool b2 => by_cases hs : subMap.isEmpty <;> simp [hs, hm, lookupJ, hnone, loopAt]
          | num n2 => by_cases hs : subMap.isEmpty <;> simp [hs, hm, lookupJ, hnone, loopAt]
          | str s2 => by_cases hs : subMap.isEmpty <;> simp [hs, hm, lookupJ, hnone, loopAt]
          | arr l2 => by_cases hs : subMap.isEmpty <;> simp [hs, hm, lookupJ, hnone, loopAt]
      | null =>
        simp only [mergeLoop, lookupJ_append]
        cases hm : lookupJ m2 k1 <;> simp [hm, lookupJ, hnone, loopAt]
      | bool b =>
        simp only [mergeLoop, lookupJ_append]
        cases hm : lookupJ m2 k1 <;> simp [hm, lookupJ, hnone, loopAt]
      | num n =>
        simp only [mergeLoop, lookupJ_append]
        cases hm : lookupJ m2 k1 <;> simp [hm, lookupJ, hnone, loopAt]
      | str s =>
        simp only [mergeLoop, lookupJ_append]
        cases hm : lookupJ m2 k1 <;> simp [hm, lookupJ, hnone, loopAt]
      | arr l =>
        simp only [mergeLoop, lookupJ_append]
        cases hm : lookupJ m2 k1 <;> simp [hm, lookupJ, hnone, loopAt]
    · obtain ⟨entry, hkeys, heq⟩ := mergeLoop_cons_keys k1 v m2
      rw [heq rest, lookupJ_append, lookupJ_same_key hk entry hkeys]
      rw [ih hrest k]
      simp [lookupJ, hk]

/-- Per-key characterization of `mergeMaps` for inputs with distinct keys
at each level: the value at a key is `mergedAt` of the two inputs' values
there. -/
theorem lookupJ_mergeMaps {m1 : List (String × Json)} (m2 : List (String × Json))
    (h : wfList m1 = true) (k : String) :
    lookupJ (mergeMaps m1 m2) k = mergedAt (lookupJ m1 k) (lookupJ m2 k) := by
  simp only [mergeMaps]
  rw [lookupJ_addMissing, mergeLoop_lookup m2 m1 h k]
  rfl

theorem getPath_nil_none (p : List String) : getPath ([] : List (String × Json)) p = none := by
  cases p with
  | nil => rfl
  | cons k p' => cases p' <;> simp [getPath, lookupJ]

theorem lookupJ_scalar_leaf {m : List (String × Json)} {k : String} {v : Json}
    (hm : lookupJ m k = some v) (hsc : isScalar v = true) : ([k], v) ∈ leaves m := by
  induction m with
  | nil => simp [lookupJ] at hm
  | cons e rest ih =>
    obtain ⟨k1, w⟩ := e
    by_cases hk : k1 = k
    · subst hk
      rw [lookupJ, if_pos rfl] at hm
      cases w with
      | obj s =>
        injection hm with hm
        subst hm
        simp [isScalar] at hsc
      | null =>
        injection hm with hm
        subst hm
        simp [leaves]
      | bool b =>
        injection hm with hm
        subst hm
        simp [leaves]
      | num n =>
        injection hm with hm
        subst hm
        simp [leaves]
      | str s =>
        injection hm with hm
        subst hm
        simp [leaves]
      | arr l =>
        injection hm with hm
        subst hm
        simp [leaves]
    · rw [lookupJ, if_neg hk] at hm
      have hmem := ih hm
      cases w with
      | obj s =>
        simp only [leaves, List.mem_append]
        exact Or.inr hmem
      | null => simp only [leaves, List.mem_cons]; exact Or.inr hmem
      | bool b => simp only [leaves, List.mem_cons]; exact Or.inr hmem
      | num n => simp only [leaves, List.mem_cons]; exact Or.inr hmem
      | str s => simp only [leaves, List.mem_cons]; exact Or.inr hmem
      | arr l => simp only [leaves, List.mem_cons]; exact Or.inr hmem

theorem leaves_child {m : List (String × Json)} {k : String} {s : List (String × Json)}
    (hm : lookupJ m k = some (Json.obj s)) {p : List String} {v : Json}
    (hp : (p, v) ∈ leaves s) : (k :: p, v) ∈ leaves m := by
  induction m with
  | nil => simp [lookupJ] at hm
  | cons e rest ih =>
    obtain ⟨k1, w⟩ := e
    by_cases hk : k1 = k
    · subst hk
      rw [lookupJ, if_pos rfl] at hm
      injection hm with hm
      subst hm
      simp only [leaves, List.mem_append, List.mem_map]
      exact Or.inl ⟨(p, v), hp, rfl⟩
    · rw [lookupJ, if_neg hk] at hm
      have hmem := ih hm
      cases w with
      | obj s2 =>
        simp only [leaves, List.mem_append]
        exact Or.inr hmem
      | null => simp only [leaves, List.mem_cons]; exact Or.inr hmem
      | bool b => simp only [leaves, List.mem_cons]; exact Or.inr hmem
      | num n => simp only [leaves, List.mem_cons]; exact Or.inr hmem
      | str s2 => simp only [leaves, List.mem_cons]; exact Or.inr hmem
      | arr l => simp only [leaves, List.mem_cons]; exact Or.inr hmem

theorem disjointLeaves_not_mem {m1 m2 : List (String × Json)} (h : disjointLeaves m1 m2 = true)
    {p : List String} {v1 v2 : Json} (h1 : (p, v1) ∈ leaves m1) (h2 : (p, v2) ∈ leaves m2) :
    False := by
  simp only [disjointLeaves, List.all_eq_true] at h
  have hx := h _ h1
  simp only [Bool.not_eq_true', List.any_eq_false] at hx
  have hy := hx _ h2
  simp at hy

theorem disjointLeaves_child {m1 m2 : List (String × Json)} (h : disjointLeaves m1 m2 = true)
    {k : String} {s1 s2 : List (String × Json)}
    (h1 : lookupJ m1 k = some (Json.obj s1)) (h2 : lookupJ m2 k = some (Json.obj s2)) :
    disjointLeaves s1 s2 = true := by
  simp only [disjointLeaves, List.all_eq_true]
  intro pv hpv
  simp only [Bool.not_eq_true', List.any_eq_false]
  intro qw hqw
  by_cases hpq : pv.1 = qw.1
  · exfalso
    have l1 : (k :: pv.1, pv.2) ∈ leaves m1 := leaves_child h1 hpv
    have l2 : (k :: qw.1, qw.2) ∈ leaves m2 := leaves_child h2 hqw
    rw [hpq] at l1
    exact disjointLeaves_not_mem h l1 l2
  · simp [hpq]

theorem wfList_lookup {m : List (String × Json)} (h : wfList m = true) {k : String}
    {s : List (String × Json)} (hm : lookupJ m k = some (Json.obj s)) : wfList s = true := by
  induction m with
  | nil => simp [lookupJ] at hm
  | cons e rest ih =>
    obtain ⟨k1, w⟩ := e
    simp only [wfList, Bool.and_eq_true] at h
    by_cases hk : k1 = k
    · subst hk
      rw [lookupJ, if_pos rfl] at hm
      injection hm with hm
      subst hm
      simpa [wfVal] using h.1.2
    · rw [lookupJ, if_neg hk] at hm
      exact ih h.2 hm

theorem compat_rest {k1 : String} {w : Json} {rest m2 : List (String × Json)}
    (h : compat ((k1, w) :: rest) m2 = true) : compat rest m2 = true := by
  cases w <;> simp only [compat, Bool.and_eq_true] at h <;> exact h.2

theorem compat_lookup : ∀ {m1 m2 : List (String × Json)}, compat m1 m2 = true →
    ∀ {k : String} {v1 : Json}, lookupJ m1 k = some v1 →
      (∀ s1, v1 = Json.obj s1 → ∀ v2, lookupJ m2 k = some v2 →
        ∃ s2, v2 = Json.obj s2 ∧ compat s1 s2 = true) ∧
      (isScalar v1 = true → ∀ v2, lookupJ m2 k = some v2 → isScalar v2 = true) := by
  intro m1
  induction m1 with
  | nil => intro m2 h k v1 hv1; simp [lookupJ] at hv1
  | cons e rest ih =>
    intro m2 h k v1 hv1
    obtain ⟨k1, w⟩ := e
    by_cases hk : k1 = k
    · subst hk
      rw [lookupJ, if_pos rfl] at hv1
      injection hv1 with hv1
      subst hv1
      cases w with
      | obj s1 =>
        simp only [compat, Bool.and_eq_true] at h
        constructor
        · intro s1' hs1' v2 hv2
          injection hs1' with hs1'
          subst hs1'
          rw [hv2] at h
          cases v2 with
          | obj s2 => exact ⟨s2, rfl, h.1⟩
          | null => simp at h
          | bool b => simp at h
          | num n => simp at h
          | str s => simp at h
          | arr l => simp at h
        · intro hsc; simp [isScalar] at hsc
      | null =>
        refine ⟨fun s1 hs1 => by simp at hs1, fun _ v2 hv2 => ?_⟩
        simp only [compat, Bool.and_eq_true] at h
        rw [hv2] at h
        cases v2 <;> simp at h <;> simp [isScalar]
      | bool b =>
        refine ⟨fun s1 hs1 => by simp at hs1, fun _ v2 hv2 => ?_⟩
        simp only [compat, Bool.and_eq_true] at h
        rw [hv2] at h
        cases v2 <;> simp at h <;> simp [isScalar]
      | num n =>
        refine ⟨fun s1 hs1 => by simp at hs1, fun _ v2 hv2 => ?_⟩
        simp only [compat, Bool.and_eq_true] at h
        rw [hv2] at h
        cases v2 <;> simp at h <;> simp [isScalar]
      | str s =>
        refine ⟨fun s1 hs1 => by simp at hs1, fun _ v2 hv2 => ?_⟩
        simp only [compat, Bool.and_eq_true] at h
        rw [hv2] at h
        cases v2 <;> simp at h <;> simp [isScalar]
      | arr l =>
        refine ⟨fun s1 hs1 => by simp at hs1, fun _ v2 hv2 => ?_⟩
        simp only [compat, Bool.and_eq_true] at h
        rw [hv2] at h
        cases v2 <;> simp at h <;> simp [isScalar]
    · rw [lookupJ, if_neg hk] at hv1
      exact ih (compat_rest h) hv1

theorem mergedAt_none (o : Option Json) : mergedAt none o = o := rfl

theorem mergedAt_scalar_none {v : Json} (hsc : isScalar v = true) :
    mergedAt (some v) none = some v := by
  cases v with
  | obj s => simp [isScalar] at hsc
  | null => rfl
  | bool b => rfl
  | num n => rfl
  | str s => rfl
  | arr l => rfl

theorem mergedAt_scalar_some {v v2 : Json} (hsc : isScalar v = true) :
    mergedAt (some v) (some v2) = some v2 := by
  cases v with
  | obj s => simp [isScalar] at hsc
  | null => simp [mergedAt, loopAt]
  | bool b => simp [mergedAt, loopAt]
  | num n => simp [mergedAt, loopAt]
  | str s => simp [mergedAt, loopAt]
  | arr l => simp [mergedAt, loopAt]

theorem mergedAt_obj_obj (s1 s2 : List (String × Json)) :
    mergedAt (some (Json.obj s1)) (some (Json.obj s2)) =
      if (mergeMaps s1 s2).isEmpty then some (Json.obj s2)
      else some (Json.obj (mergeMaps s1 s2)) := by
  by_cases h : (mergeMaps s1 s2).isEmpty <;> simp [mergedAt, loopAt, h]

theorem mergedAt_obj_none (s1 : List (String × Json)) :
    mergedAt (some (Json.obj s1)) none =
      if s1.isEmpty then none else some (Json.obj s1) := by
  by_cases h : s1.isEmpty <;> simp [mergedAt, loopAt, h]

theorem mergedAt_obj_scalar {s1 : List (String × Json)} {v2 : Json} (hsc : isScalar v2 = true) :
    mergedAt (some (Json.obj s1)) (some v2) =
      if s1.isEmpty then some v2 else some (Json.obj s1) := by
  cases v2 with
  | obj s => simp [isScalar] at hsc
  | null => by_cases h : s1.isEmpty <;> simp [mergedAt, loopAt, h]
  | bool b => by_cases h : s1.isEmpty <;> simp [mergedAt, loopAt, h]
  | num n => by_cases h : s1.isEmpty <;> simp [mergedAt, loopAt, h]
  | str s => by_cases h : s1.isEmpty <;> simp [mergedAt, loopAt, h]
  | arr l => by_cases h : s1.isEmpty <;> simp [mergedAt, loopAt, h]

theorem isEmpty_false_of_getPath {s : List (String × Json)} {p : List String} {v : Json}
    (h : getPath s p = some v) : s.isEmpty = false := by
  cases s with
  | nil => rw [getPath_nil_none] at h; cases h
  | cons e rest => rfl

/-- A leaf of either input survives the merge, provided the inputs have
compatible shapes and disjoint leaf paths (and well-formed keys). -/
theorem mergeMaps_preserves_leaf :
    ∀ (p : List String) (m1 m2 : List (String × Json)),
      wfList m1 = true → compat m1 m2 = true → disjointLeaves m1 m2 = true →
      ∀ v, isScalar v = true →
        (getPath m1 p = some v ∨ getPath m2 p = some v) →
        getPath (mergeMaps m1 m2) p = some v := by
  intro p
  induction p with
  | nil =>
    intro m1 m2 _ _ _ v _ hor
    cases hor with
    | inl h => simp [getPath] at h
    | inr h => simp [getPath] at h
  | cons k p' ih =>
    intro m1 m2 hw1 hc hd v hsc hor
    cases p' with
    | nil =>
      simp only [getPath] at hor ⊢
      rw [lookupJ_mergeMaps m2 hw1 k]
      cases hor with
      | inl h1 =>
        cases h2 : lookupJ m2 k with
        | none => rw [h1]; exact mergedAt_scalar_none hsc
        | some v2 =>
          exfalso
          have hsc2 := (compat_lookup hc h1).2 hsc v2 h2
          exact disjointLeaves_not_mem hd (lookupJ_scalar_leaf h1 hsc)
            (lookupJ_scalar_leaf h2 hsc2)
      | inr h2 =>
        cases h1 : lookupJ m1 k with
        | none => rw [h2]; exact mergedAt_none _
        | some v1 =>
          exfalso
          cases v1 with
          | obj s1 =>
            obtain ⟨s2, hv2obj, _⟩ := (compat_lookup hc h1).1 s1 rfl v h2
            subst hv2obj
            simp [isScalar] at hsc
          | null =>
            exact disjointLeaves_not_mem hd
              (lookupJ_scalar_leaf h1 (by simp [isScalar])) (lookupJ_scalar_leaf h2 hsc)
          | bool b =>
            exact disjointLeaves_not_mem hd
              (lookupJ_scalar_leaf h1 (by simp [isScalar])) (lookupJ_scalar_leaf h2 hsc)
          | num n =>
            exact disjointLeaves_not_mem hd
              (lookupJ_scalar_leaf h1 (by simp [isScalar])) (lookupJ_scalar_leaf h2 hsc)
          | str s =>
            exact disjointLeaves_not_mem hd
              (lookupJ_scalar_leaf h1 (by simp [isScalar])) (lookupJ_scalar_leaf h2 hsc)
          | arr l =>
            exact disjointLeaves_not_mem hd
              (lookupJ_scalar_leaf h1 (by simp [isScalar])) (lookupJ_scalar_leaf h2 hsc)
    | cons k2 p'' =>
      simp only [getPath] at hor ⊢
      rw [lookupJ_mergeMaps m2 hw1 k]
      cases hor with
      | inl h1 =>
        cases h1m : lookupJ m1 k with
        | none => rw [h1m] at h1; simp at h1
        | some v1 =>
          rw [h1m] at h1
          cases v1 with
          | obj s1 =>
            cases h2m : lookupJ m2 k with
            | none =>
              rw [mergedAt_obj_none, isEmpty_false_of_getPath h1]
              simpa using h1
            | some v2 =>
              obtain ⟨s2, hv2, hcc⟩ := (compat_lookup hc h1m).1 s1 rfl v2 h2m
              subst hv2
              have hres := ih s1 s2 (wfList_lookup hw1 h1m) hcc
                (disjointLeaves_child hd h1m h2m) v hsc (Or.inl h1)
              rw [mergedAt_obj_obj, isEmpty_false_of_getPath hres]
              simpa using hres
          | null => simp at h1
          | bool b => simp at h1
          | num n => simp at h1
          | str s => simp at h1
          | arr l => simp at h1
      | inr h2 =>
        cases h2m : lookupJ m2 k with
        | none => rw [h2m] at h2; simp at h2
        | some v2 =>
          rw [h2m] at h2
          cases v2 with
          | obj s2 =>
            cases h1m : lookupJ m1 k with
            | none => rw [mergedAt_none]; simpa using h2
            | some v1 =>
              cases v1 with
              | obj s1 =>
                obtain ⟨s2', hv2', hcc⟩ := (compat_lookup hc h1m).1 s1 rfl _ h2m
                injection hv2' with hv2'
                subst hv2'
                have hres := ih s1 s2 (wfList_lookup hw1 h1m) hcc
                  (disjointLeaves_child hd h1m h2m) v hsc (Or.inr h2)
                rw [mergedAt_obj_obj, isEmpty_false_of_getPath hres]
                simpa using hres
              | null =>
                exfalso
                have := (compat_lookup hc h1m).2 (by simp [isScalar]) _ h2m
                simp [isScalar] at this
              | bool b =>
                exfalso
                have := (compat_lookup hc h1m).2 (by simp [isScalar]) _ h2m
                simp [isScalar] at this
              | num n =>
                exfalso
                have := (compat_lookup hc h1m).2 (by simp [isScalar]) _ h2m
                simp [isScalar] at this
              | str s =>
                exfalso
                have := (compat_lookup hc h1m).2 (by simp [isScalar]) _ h2m
                simp [isScalar] at this
              | arr l =>
                exfalso
                have := (compat_lookup hc h1m).2 (by simp [isScalar]) _ h2m
                simp [isScalar] at this
          | null => simp at h2
          | bool b => simp at h2
          | num n => simp at h2
          | str s => simp at h2
          | arr l => simp at h2

/-- At any path where the base input holds a scalar leaf and the override
input holds a value, the merge holds the override's value. -/
theorem mergeMaps_override_scalar :
    ∀ (p : List String) (m1 m2 : List (String × Json)),
      wfList m1 = true →
      ∀ v1 v2, isScalar v1 = true →
        getPath m1 p = some v1 → getPath m2 p = some v2 →
        getPath (mergeMaps m1 m2) p = some v2 := by
  intro p
  induction p with
  | nil => intro m1 m2 _ v1 v2 _ h1 _; simp [getPath] at h1
  | cons k p' ih =>
    intro m1 m2 hw1 v1 v2 hsc1 h1 h2
    cases p' with
    | nil =>
      simp only [getPath] at h1 h2 ⊢
      rw [lookupJ_mergeMaps m2 hw1 k, h1, h2]
      exact mergedAt_scalar_some hsc1
    | cons k2 p'' =>
      simp only [getPath] at h1 h2 ⊢
      rw [lookupJ_mergeMaps m2 hw1 k]
      cases h1m : lookupJ m1 k with
      | none => rw [h1m] at h1; simp at h1
      | some w1 =>
        rw [h1m] at h1
        cases w1 with
        | obj s1 =>
          cases h2m : lookupJ m2 k with
          | none => rw [h2m] at h2; simp at h2
          | some w2 =>
            rw [h2m] at h2
            cases w2 with
            | obj s2 =>
              have hres := ih s1 s2 (wfList_lookup hw1 h1m) v1 v2 hsc1 h1 h2
              rw [mergedAt_obj_obj, isEmpty_false_of_getPath hres]
              simpa using hres
            | null => simp at h2
            | bool b => simp at h2
            | num n => simp at h2
            | str s => simp at h2
            | arr l => simp at h2
        | null => simp at h1
        | bool b => simp at h1
        | num n => simp at h1
        | str s => simp at h1
        | arr l => simp at h1

/-- The entries `mergeMaps base empty-map` keeps: everything except
top-level entries whose value is the empty object. -/
def keepEntry : String × Json → Bool
  | (_, Json.obj s) => !s.isEmpty
  | _ => true

theorem addMissing_nil (acc : List (String × Json)) : addMissing acc [] = acc := rfl

theorem mergeMaps_nil_right (m1 : List (String × Json)) :
    mergeMaps m1 [] = m1.filter keepEntry := by
  simp only [mergeMaps, addMissing_nil]
  induction m1 with
  | nil => simp [mergeLoop]
  | cons e rest ih =>
    obtain ⟨k, v⟩ := e
    cases v with
    | obj s =>
      by_cases hs : s.isEmpty <;>
        simp [mergeLoop, lookupJ, List.filter, keepEntry, hs, ih]
    | null => simp [mergeLoop, lookupJ, List.filter, keepEntry, ih]
    | bool b => simp [mergeLoop, lookupJ, List.filter, keepEntry, ih]
    | num n => simp [mergeLoop, lookupJ, List.filter, keepEntry, ih]
    | str s => simp [mergeLoop, lookupJ, List.filter, keepEntry, ih]
    | arr l => simp [mergeLoop, lookupJ, List.filter, keepEntry, ih]

theorem keyMem_false_ne {k : String} {m : List (String × Json)} (h : keyMem k m = false) :
    ∀ e ∈ m, e.1 ≠ k := by
  induction m with
  | nil => intro e he; cases he
  | cons e2 rest ih =>
    intro e he
    obtain ⟨k1, v⟩ := e2
    simp only [keyMem, Bool.or_eq_false_iff, decide_eq_false_iff_not] at h
    cases he with
    | head => exact h.1
    | tail _ hm => exact ih h.2 e hm

theorem addMissing_fresh :
    ∀ (m2 acc : List (String × Json)), wfList m2 = true →
      (∀ e ∈ m2, lookupJ acc e.1 = none) → addMissing acc m2 = acc ++ m2 := by
  intro m2
  induction m2 with
  | nil => intro acc _ _; simp [addMissing_nil]
  | cons e rest ih =>
    intro acc hwf hfresh
    obtain ⟨k, v⟩ := e
    simp only [wfList, Bool.and_eq_true, Bool.not_eq_true'] at hwf
    have hacc : lookupJ acc k = none := hfresh (k, v) (List.mem_cons_self _ _)
    rw [addMissing, hacc]
    simp only [Option.isSome_none, Bool.false_eq_true, if_false]
    rw [ih (acc ++ [(k, v)]) hwf.2]
    · simp
    · intro e he
      rw [lookupJ_append, hfresh e (List.mem_cons_of_mem _ he)]
      have hne := keyMem_false_ne hwf.1.1 e he
      have hne2 : ¬(k = e.1) := fun h => hne h.symm
      simp [lookupJ, hne2]

theorem mergeMaps_nil_left {m2 : List (String × Json)} (hw2 : wfList m2 = true) :
    mergeMaps [] m2 = m2 := by
  simp only [mergeMaps, mergeLoop]
  rw [addMissing_fresh m2 [] hw2 (fun e _ => rfl)]
  simp

theorem mergedAt_eq_none_iff (o1 o2 : Option Json) :
    mergedAt o1 o2 = none ↔ o2 = none ∧ (o1 = none ∨ o1 = some (Json.obj [])) := by
  cases o2 with
  | some w =>
    constructor
    · intro h
      exfalso
      cases o1 with
      | none => simp [mergedAt, loopAt] at h
      | some v1 =>
        cases v1 with
        | obj s1 =>
          cases w with
          | obj s2 =>
            rw [mergedAt_obj_obj] at h
            by_cases hs : (mergeMaps s1 s2).isEmpty <;> simp [hs] at h
          | null =>
            rw [mergedAt_obj_scalar (by simp [isScalar])] at h
            by_cases hs : s1.isEmpty <;> simp [hs] at h
          | bool b =>
            rw [mergedAt_obj_scalar (by simp [isScalar])] at h
            by_cases hs : s1.isEmpty <;> simp [hs] at h
          | num n =>
            rw [mergedAt_obj_scalar (by simp [isScalar])] at h
            by_cases hs : s1.isEmpty <;> simp [hs] at h
          | str s =>
            rw [mergedAt_obj_scalar (by simp [isScalar])] at h
            by_cases hs : s1.isEmpty <;> simp [hs] at h
          | arr l =>
            rw [mergedAt_obj_scalar (by simp [isScalar])] at h
            by_cases hs : s1.isEmpty <;> simp [hs] at h
        | null => rw [mergedAt_scalar_some (by simp [isScalar])] at h; cases h
        | bool b => rw [mergedAt_scalar_some (by simp [isScalar])] at h; cases h
        | num n => rw [mergedAt_scalar_some (by simp [isScalar])] at h; cases h
        | str s => rw [mergedAt_scalar_some (by simp [isScalar])] at h; cases h
        | arr l => rw [mergedAt_scalar_some (by simp [isScalar])] at h; cases h
    · intro ⟨h, _⟩; cases h
  | none =>
    constructor
    · intro h
      refine ⟨rfl, ?_⟩
      cases o1 with
      | none => exact Or.inl rfl
      | some v1 =>
        cases v1 with
        | obj s1 =>
          rw [mergedAt_obj_none] at h
          by_cases hs : s1.isEmpty
          · right
            cases s1 with
            | nil => rfl
            | cons a l => simp at hs
          · simp [hs] at h
        | null => rw [mergedAt_scalar_none (by simp [isScalar])] at h; cases h
        | bool b => rw [mergedAt_scalar_none (by simp [isScalar])] at h; cases h
        | num n => rw [mergedAt_scalar_none (by simp [isScalar])] at h; cases h
        | str s => rw [mergedAt_scalar_none (by simp [isScalar])] at h; cases h
        | arr l => rw [mergedAt_scalar_none (by simp [isScalar])] at h; cases h
    · intro ⟨_, h1⟩
      cases h1 with
      | inl h => subst h; rfl
      | inr h => subst h; rfl

/-- C4 (counterexample): with base `k ↦ (a ↦ 1)` and override `k ↦ 2` the
leaf sets are disjoint (paths `k.a` and `k`), both documents are
well-formed, yet the merge does not contain override's leaf at `k`: the
claim's first conjunct fails, because a key mapping to a non-empty object
in base and to a scalar in override keeps base's object. -/
theorem c4_counterexample :
    wfList [("k", Json.obj [("a", Json.str "1")])] = true ∧
    wfList [("k", Json.str "2")] = true ∧
    disjointLeaves [("k", Json.obj [("a", Json.str "1")])] [("k", Json.str "2")] = true ∧
    getPath [("k", Json.str "2")] ["k"] = some (Json.str "2") ∧
    isScalar (Json.str "2") = true ∧
    getPath (mergeMaps [("k", Json.obj [("a", Json.str "1")])] [("k", Json.str "2")]) ["k"] ≠
      some (Json.str "2") := by
  refine ⟨rfl, rfl, by simp [disjointLeaves, leaves], by simp [getPath, lookupJ], rfl, ?_⟩
  simp [mergeMaps, mergeLoop, addMissing, lookupJ, getPath]

/-- C4 (amended): for well-formed inputs, leaf preservation under
disjointness additionally requires shape compatibility (no key path may
hold an object in base and a present non-object in override, or vice
versa); under that proviso every leaf of both inputs is in the merge.
Separately (and without any disjointness), at every key path where base
holds a scalar leaf and override holds a scalar leaf, the merge holds
override's value. -/
theorem c4_merge_leaf_preservation (m1 m2 : List (String × Json)) (hw1 : wfList m1 = true) :
    (compat m1 m2 = true → disjointLeaves m1 m2 = true →
      ∀ p v, isScalar v = true →
        (getPath m1 p = some v ∨ getPath m2 p = some v) →
        getPath (mergeMaps m1 m2) p = some v) ∧
    (∀ p v1 v2, isScalar v1 = true → isScalar v2 = true →
      getPath m1 p = some v1 → getPath m2 p = some v2 →
      getPath (mergeMaps m1 m2) p = some v2) :=
  ⟨fun hc hd p v hsc hor => mergeMaps_preserves_leaf p m1 m2 hw1 hc hd v hsc hor,
   fun p v1 v2 hsc1 _ h1 h2 => mergeMaps_override_scalar p m1 m2 hw1 v1 v2 hsc1 h1 h2⟩

/-- C4 (witness): the amended theorem applied at disjoint documents
`(a ↦ 1)` / `(b ↦ 2)` (override's leaf survives) and at overlapping
documents `(x ↦ old)` / `(x ↦ new)` (override wins). -/
theorem c4_witness :
    getPath (mergeMaps [("a", Json.str "1")] [("b", Json.str "2")]) ["b"] =
      some (Json.str "2") ∧
    getPath (mergeMaps [("x", Json.str "old")] [("x", Json.str "new")]) ["x"] =
      some (Json.str "new") := by
  constructor
  · exact (c4_merge_leaf_preservation [("a", Json.str "1")] [("b", Json.str "2")] rfl).1
      (by simp [compat, lookupJ]) (by simp [disjointLeaves, leaves]) ["b"] (Json.str "2") rfl
      (Or.inr (by simp [getPath, lookupJ]))
  · exact (c4_merge_leaf_preservation [("x", Json.str "old")] [("x", Json.str "new")] rfl).2
      ["x"] (Json.str "old") (Json.str "new") rfl rfl (by simp [getPath, lookupJ])
      (by simp [getPath, lookupJ])

/-- C5 (counterexample): merging `k ↦ (empty object)` with
`k ↦ (empty object)` merges the two sub-objects into the empty object —
yet `k` is present in the result (the second loop re-adds override's
original value), refuting "any key whose merged sub-object becomes empty
is absent from the result". -/
theorem c5_counterexample :
    mergeMaps [] ([] : List (String × Json)) = [] ∧
    lookupJ (mergeMaps [("k", Json.obj [])] [("k", Json.obj [])]) "k" = some (Json.obj []) := by
  constructor
  · simp [mergeMaps, mergeLoop, addMissing]
  · simp [mergeMaps, mergeLoop, addMissing, lookupJ]

/-- C5 (amended): a key is absent from `mergeMaps base override` exactly
when override lacks it and base either lacks it or maps it to the empty
object — in particular a key whose recursively merged sub-object is empty
is re-added with override's original value whenever override contains the
key.  `mergeMaps base (empty)` is base minus its top-level empty-object
entries (nested empty objects are kept), and `mergeMaps (empty) override`
is exactly override. -/
theorem c5_merge_identities :
    (∀ m1 m2 : List (String × Json), wfList m1 = true → ∀ k,
      lookupJ (mergeMaps m1 m2) k = none ↔
        lookupJ m2 k = none ∧ (lookupJ m1 k = none ∨ lookupJ m1 k = some (Json.obj []))) ∧
    (∀ m1 : List (String × Json), mergeMaps m1 [] = m1.filter keepEntry) ∧
    (∀ m2 : List (String × Json), wfList m2 = true → mergeMaps [] m2 = m2) :=
  ⟨fun m1 m2 hw1 k => by
      rw [lookupJ_mergeMaps m2 hw1 k]
      exact mergedAt_eq_none_iff _ _,
   mergeMaps_nil_right,
   fun _ hw2 => mergeMaps_nil_left hw2⟩

/-- C5 (witness): the amended theorem applied at concrete documents:
`a ↦ 1, e ↦ (empty)` merged with the empty override keeps `a` and drops
`e`; the empty base merged with `b ↦ 2` is exactly the override; and the
key `a` is absent from the merge with an override lacking it only in the
empty-object case. -/
theorem c5_witness :
    mergeMaps [("a", Json.str "1"), ("e", Json.obj [])] [] = [("a", Json.str "1")] ∧
    mergeMaps [] [("b", Json.str "2")] = [("b", Json.str "2")] ∧
    lookupJ (mergeMaps [("e", Json.obj [])] [("b", Json.str "2")]) "e" = none := by
  refine ⟨?_, ?_, ?_⟩
  · rw [c5_merge_identities.2.1 [("a", Json.str "1"), ("e", Json.obj [])]]
    simp [List.filter, keepEntry]
  · exact c5_merge_identities.2.2 [("b", Json.str "2")] rfl
  · exact (c5_merge_identities.1 [("e", Json.obj [])] [("b", Json.str "2")] rfl "e").mpr
      ⟨by simp [lookupJ], Or.inr (by simp [lookupJ])⟩

/-- C10 (counterexample): with base `k ↦ (empty object)` and override
`k ↦ "x"`, the key is pruned in the first pass and override's scalar is
re-added by the second pass: override DOES win at that key, refuting
"discards override's scalar entirely". -/
theorem c10_counterexample :
    lookupJ [("k", Json.obj [])] "k" = some (Json.obj []) ∧
    isScalar (Json.str "x") = true ∧
    mergeMaps [("k", Json.obj [])] [("k", Json.str "x")] = [("k", Json.str "x")] := by
  refine ⟨by simp [lookupJ], rfl, ?_⟩
  simp [mergeMaps, mergeLoop, addMissing, lookupJ]

/-- C10 (amended): when base maps a key to a nested object and override
maps it to a present non-object value, the merge keeps base's object at
that key if it is non-empty (override's value is discarded); if base's
object is empty, the key is pruned in the first pass and override's value
is re-added in the second, so override wins. -/
theorem c10_base_object_wins (m1 m2 : List (String × Json)) (hw1 : wfList m1 = true)
    (k : String) (s1 : List (String × Json)) (v2 : Json)
    (h1 : lookupJ m1 k = some (Json.obj s1)) (h2 : lookupJ m2 k = some v2)
    (hsc : isScalar v2 = true) :
    lookupJ (mergeMaps m1 m2) k = if s1.isEmpty then some v2 else some (Json.obj s1) := by
  rw [lookupJ_mergeMaps m2 hw1 k, h1, h2]
  exact mergedAt_obj_scalar hsc

/-- C10 (witness): the amended theorem applied at base `k ↦ (a ↦ 1)` and
override `k ↦ 2`: base's non-empty object survives. -/
theorem c10_witness :
    lookupJ (mergeMaps [("k", Json.obj [("a", Json.str "1")])] [("k", Json.str "2")]) "k" =
      some (Json.obj [("a", Json.str "1")]) := by
  have h := c10_base_object_wins [("k", Json.obj [("a", Json.str "1")])] [("k", Json.str "2")]
    rfl "k" [("a", Json.str "1")] (Json.str "2") (by simp [lookupJ]) (by simp [lookupJ]) rfl
  simpa using h

theorem ser_obj_nil : ser (Json.obj []) = emptyObjSentinel := rfl

theorem entryAction_skip_iff (v : Json) :
    entryAction v = EntryAction.skip ↔
      (strContains (ser v) emptyObjSentinel = true ∨ v = Json.null) := by
  cases v with
  | obj m =>
    by_cases hc : strContains (ser (Json.obj m)) emptyObjSentinel
    · simp [entryAction, hc]
    · cases m with
      | nil => exact absurd (by rw [ser_obj_nil]; decide) hc
      | cons e rest =>
        rw [Bool.not_eq_true] at hc
        simp [entryAction, hc]
  | null =>
    simp [entryAction, show strContains (ser Json.null) emptyObjSentinel = false from rfl]
  | bool b =>
    by_cases hc : strContains (ser (Json.bool b)) emptyObjSentinel <;> simp [entryAction, hc]
  | num n =>
    by_cases hc : strContains (ser (Json.num n)) emptyObjSentinel <;> simp [entryAction, hc]
  | str s =>
    by_cases hc : strContains (ser (Json.str s)) emptyObjSentinel <;> simp [entryAction, hc]
  | arr l =>
    by_cases hc : strContains (ser (Json.arr l)) emptyObjSentinel <;> simp [entryAction, hc]

theorem entryAction_write_iff (v : Json) (m : List (String × Json)) :
    entryAction v = EntryAction.write m ↔
      (strContains (ser v) emptyObjSentinel = false ∧ v = Json.obj m ∧ m ≠ []) := by
  cases v with
  | obj m2 =>
    by_cases hc : strContains (ser (Json.obj m2)) emptyObjSentinel
    · simp [entryAction, hc]
    · cases m2 with
      | nil => exact absurd (by rw [ser_obj_nil]; decide) hc
      | cons e rest =>
        rw [Bool.not_eq_true] at hc
        simp only [entryAction, hc, Bool.false_eq_true, if_false, List.length_cons]
        rw [if_neg (by omega : ¬(rest.length + 1 = 0))]
        constructor
        · intro h
          injection h with h
          exact ⟨by simp [hc], by rw [h], by rw [← h]; simp⟩
        · rintro ⟨-, hm, -⟩
          injection hm with hm
          rw [hm]
  | null =>
    simp [entryAction, show strContains (ser Json.null) emptyObjSentinel = false from rfl]
  | bool b =>
    by_cases hc : strContains (ser (Json.bool b)) emptyObjSentinel <;> simp [entryAction, hc]
  | num n =>
    by_cases hc : strContains (ser (Json.num n)) emptyObjSentinel <;> simp [entryAction, hc]
  | str s =>
    by_cases hc : strContains (ser (Json.str s)) emptyObjSentinel <;> simp [entryAction, hc]
  | arr l =>
    by_cases hc : strContains (ser (Json.arr l)) emptyObjSentinel <;> simp [entryAction, hc]

theorem persistData_completed (o : PersistResponses) (d : pageData)
    (t : BrandingUniversalLogin) (th : BrandingTheme) (b : Branding)
    (hT : d.templates = some t) (hTh : d.themes = some th) (hB : d.branding = some b) :
    persistData o d = PersistOutcome.completed
      (firstErrL (([templateTask o t, themeTask o th, promptTask o d.authenticationProfile,
        brandingTask o b] ++ d.customText.map (customTextTask o)).map Prod.fst))
      (([templateTask o t, themeTask o th, promptTask o d.authenticationProfile,
        brandingTask o b] ++ d.customText.map (customTextTask o)).flatMap Prod.snd) := by
  simp [persistData, hT, hTh, hB]

/-- A concrete gateway reply set for `persistData` in which every write
succeeds and no default theme exists yet. -/
def oracleAllOk : PersistResponses where
  templateWrite := none
  themeDefault := Except.error "no theme configured"
  themeCreate := none
  themeUpdate := none
  promptUpdate := none
  brandingUpdate := none
  customTextWrite := fun _ => none

/-- A concrete received document with every pointer-valued sub-object
present and one non-empty custom-text entry. -/
def docAllPresent : pageData where
  connected := true
  authenticationProfile := some ⟨"profile"⟩
  branding := some ⟨some "https://logo.example/a.png", "branding"⟩
  templates := some ⟨some "<html></html>"⟩
  themes := some defaultTheme
  tenant := some ⟨"Acme", ["en"], "acme.example.com"⟩
  customText := [("login", Json.obj [("title", Json.str "Sign in")])]

/-- C3 (counterexample): the entry `a ↦ (b ↦ (empty)), c ↦ "x"` has a
serialized form different from the empty-object sentinel, decodes to a
two-entry (non-empty) mapping and contains the leaf `c ↦ "x"`, so the
claim says it is written — but its serialized form CONTAINS the sentinel
as a substring (the nested empty object), so `persistData` skips it. -/
theorem c3_counterexample :
    entryAction (Json.obj [("a", Json.obj [("b", Json.obj [])]), ("c", Json.str "x")]) =
      EntryAction.skip ∧
    ser (Json.obj [("a", Json.obj [("b", Json.obj [])]), ("c", Json.str "x")]) ≠
      emptyObjSentinel ∧
    ([("a", Json.obj [("b", Json.obj [])]), ("c", Json.str "x")] : List (String × Json)).length ≠
      0 ∧
    getPath [("a", Json.obj [("b", Json.obj [])]), ("c", Json.str "x")] ["c"] =
      some (Json.str "x") ∧
    isScalar (Json.str "x") = true :=
  ⟨rfl, by decide, by decide, by simp [getPath, lookupJ], rfl⟩

/-- C3 (amended): an entry is skipped iff its serialized form CONTAINS
the serialized empty object as a substring (not merely equals it) or it
is JSON null (which decodes to an empty mapping); it is written iff its
serialized form avoids that substring and it is a non-empty object (any
other value is a decode error); and every written entry goes to the
gateway under the fixed locale `en`. -/
theorem c3_custom_text_skip_rule :
    (∀ v, entryAction v = EntryAction.skip ↔
      (strContains (ser v) emptyObjSentinel = true ∨ v = Json.null)) ∧
    (∀ v m, entryAction v = EntryAction.write m ↔
      (strContains (ser v) emptyObjSentinel = false ∧ v = Json.obj m ∧ m ≠ [])) ∧
    (∀ (o : PersistResponses) (d : pageData) t th b,
      d.templates = some t → d.themes = some th → d.branding = some b →
      ∀ kv ∈ d.customText, ∀ m, entryAction kv.2 = EntryAction.write m →
        ∃ e tr, persistData o d = PersistOutcome.completed e tr ∧
          WriteEffect.setCustomText kv.1 "en" m ∈ tr) := by
  refine ⟨entryAction_skip_iff, entryAction_write_iff, ?_⟩
  intro o d t th b hT hTh hB kv hkv m hw
  refine ⟨_, _, persistData_completed o d t th b hT hTh hB, ?_⟩
  rw [List.flatMap_append]
  apply List.mem_append_right
  rw [List.mem_flatMap]
  exact ⟨customTextTask o kv, List.mem_map_of_mem _ hkv, by simp [customTextTask, hw]⟩

/-- C3 (witness): the amended theorem applied to the concrete document:
the non-empty entry `login ↦ (title ↦ "Sign in")` is classified as a
write and lands in the persistence trace under locale `en`. -/
theorem c3_witness :
    entryAction (Json.obj [("title", Json.str "Sign in")]) =
      EntryAction.write [("title", Json.str "Sign in")] ∧
    ∃ e tr, persistData oracleAllOk docAllPresent = PersistOutcome.completed e tr ∧
      WriteEffect.setCustomText "login" "en" [("title", Json.str "Sign in")] ∈ tr := by
  constructor
  · exact (c3_custom_text_skip_rule.2.1 _ _).mpr ⟨by decide, rfl, by simp⟩
  · exact c3_custom_text_skip_rule.2.2 oracleAllOk docAllPresent _ _ _ rfl rfl rfl
      ("login", Json.obj [("title", Json.str "Sign in")]) (by simp [docAllPresent]) _
      ((c3_custom_text_skip_rule.2.1 _ _).mpr ⟨by decide, rfl, by simp⟩)

/-- The disconnect document: connection flag false, every sub-object
absent (Go nil), empty custom text — the shape of `{"connected": false}`
after JSON decoding into `pageData`. -/
def disconnectDoc : pageData where
  connected := false
  authenticationProfile := none
  branding := none
  templates := none
  themes := none
  tenant := none
  customText := []

/-- A concrete received document whose only absent sub-object is the
authentication profile. -/
def docNoProfile : pageData where
  connected := true
  authenticationProfile := none
  branding := some ⟨none, "branding"⟩
  templates := some ⟨some "body"⟩
  themes := some defaultTheme
  tenant := none
  customText := []

/-- C9 (counterexample): a document whose ONLY nil sub-object is the
authentication profile does not make `persistData` dereference a nil
pointer — the nil profile is passed to the gateway as-is and the call
completes (here without error), refuting the claim for that field. -/
theorem c9_counterexample :
    docNoProfile.authenticationProfile = none ∧
    persistData oracleAllOk docNoProfile = PersistOutcome.completed none
      [WriteEffect.setUniversalLogin (some "body"),
       WriteEffect.themeCreate { defaultTheme with id := none },
       WriteEffect.promptUpdate none,
       WriteEffect.brandingUpdate ⟨none, "branding"⟩] := by
  refine ⟨rfl, ?_⟩
  simp [persistData, docNoProfile, oracleAllOk, templateTask, themeTask, promptTask,
    brandingTask, firstErrL]

/-- C9 (amended): `persistData` panics on a nil `Templates`, `Themes` or
`Branding` (the dereferences `data.Templates.Body`, `data.Themes.ID =
nil`, `data.Branding.LogoURL = nil`, checked in goroutine launch order)
with no guard or error branch; a nil `AuthenticationProfile` is NOT
dereferenced — it is passed to the gateway write as-is and the call
completes normally. -/
theorem c9_nil_subobject_panics (o : PersistResponses) (d : pageData) :
    (d.templates = none → persistData o d = PersistOutcome.panicked "Templates") ∧
    (∀ t, d.templates = some t → d.themes = none →
      persistData o d = PersistOutcome.panicked "Themes") ∧
    (∀ t th, d.templates = some t → d.themes = some th → d.branding = none →
      persistData o d = PersistOutcome.panicked "Branding") ∧
    (∀ t th b, d.templates = some t → d.themes = some th → d.branding = some b →
      ∃ e tr, persistData o d = PersistOutcome.completed e tr ∧
        WriteEffect.promptUpdate d.authenticationProfile ∈ tr) := by
  refine ⟨?_, ?_, ?_, ?_⟩
  · intro h; simp [persistData, h]
  · intro t hT h; simp [persistData, hT, h]
  · intro t th hT hTh h; simp [persistData, hT, hTh, h]
  · intro t th b hT hTh hB
    refine ⟨_, _, persistData_completed o d t th b hT hTh hB, ?_⟩
    rw [List.flatMap_append]
    apply List.mem_append_left
    simp [templateTask, themeTask, promptTask, brandingTask]

/-- C9 (witness): the amended theorem applied at the all-nil disconnect
document (panics on `Templates`) and at the all-present document (the
profile write effect is in the trace). -/
theorem c9_witness :
    persistData oracleAllOk disconnectDoc = PersistOutcome.panicked "Templates" ∧
    ∃ e tr, persistData oracleAllOk docAllPresent = PersistOutcome.completed e tr ∧
      WriteEffect.promptUpdate (some ⟨"profile"⟩) ∈ tr := by
  constructor
  · exact (c9_nil_subobject_panics oracleAllOk disconnectDoc).1 rfl
  · have h := (c9_nil_subobject_panics oracleAllOk docAllPresent).2.2.2 _ _ _ rfl rfl rfl
    simpa [docAllPresent] using h

/-- C8: when the template write fails while the theme write (an update of
the existing default theme) succeeds, `persistData` returns the template
error — the first failure in goroutine launch order — and the trace still
contains every sub-resource write, including the successful theme and
branding updates; no compensating write exists (the effect type has
none), so nothing is rolled back. -/
theorem c8_first_error_no_rollback (o : PersistResponses) (d : pageData)
    (t : BrandingUniversalLogin) (th : BrandingTheme) (b : Branding) (ex : BrandingTheme)
    (hT : d.templates = some t) (hTh : d.themes = some th) (hB : d.branding = some b)
    (e : GErr) (hfail : o.templateWrite = some e)
    (hdef : o.themeDefault = Except.ok ex) (_hupd : o.themeUpdate = none) :
    ∃ tr, persistData o d = PersistOutcome.completed (some e) tr ∧
      WriteEffect.setUniversalLogin t.body ∈ tr ∧
      WriteEffect.themeUpdate (ex.id.getD "") { th with id := none } ∈ tr ∧
      WriteEffect.promptUpdate d.authenticationProfile ∈ tr ∧
      WriteEffect.brandingUpdate { b with logoURL := none } ∈ tr := by
  have hpd := persistData_completed o d t th b hT hTh hB
  have herr : firstErrL (([templateTask o t, themeTask o th,
      promptTask o d.authenticationProfile,
      brandingTask o b] ++ d.customText.map (customTextTask o)).map Prod.fst) = some e := by
    simp [templateTask, hfail, firstErrL]
  rw [herr] at hpd
  refine ⟨_, hpd, ?_, ?_, ?_, ?_⟩ <;>
    (rw [List.flatMap_append]
     apply List.mem_append_left
     simp [templateTask, themeTask, promptTask, brandingTask, hdef])

/-- A concrete gateway reply set in which only the template write fails
and a default theme with a known identity exists. -/
def oracleTemplateFails : PersistResponses where
  templateWrite := some "template write failed"
  themeDefault := Except.ok { defaultTheme with id := some "default-theme-id" }
  themeCreate := none
  themeUpdate := none
  promptUpdate := none
  brandingUpdate := none
  customTextWrite := fun _ => none

/-- C8 (witness): the theorem applied at a concrete oracle in which the
template write fails and everything else succeeds: the call returns the
template error while the theme-update write remains in the trace. -/
theorem c8_witness :
    ∃ tr, persistData oracleTemplateFails docAllPresent =
        PersistOutcome.completed (some "template write failed") tr ∧
      WriteEffect.themeUpdate "default-theme-id" { defaultTheme with id := none } ∈ tr := by
  obtain ⟨tr, h1, _, h3, _, _⟩ := c8_first_error_no_rollback oracleTemplateFails docAllPresent
    _ _ _ { defaultTheme with id := some "default-theme-id" } rfl rfl rfl
    "template write failed" rfl rfl rfl
  exact ⟨tr, h1, by simpa using h3⟩

/-- Replies for one receive-loop pass: every persist write succeeds and
the connection close succeeds. -/
def handlerOracle0 : HandlerOracle where
  persist := oracleAllOk
  closeResult := none

/-- C1 (code evidence): on receiving the disconnect document the receive
loop emits the disconnect notice and cancels — but, the disconnect branch
having no `return`, it then still invokes `persistData` with that same
disconnect document (which, all sub-objects being nil, dereferences the
nil `Templates` pointer).  The Persister IS invoked for the disconnect
message, contradicting the claim. -/
theorem c1_disconnect_falls_through_to_persist :
    serveLoop handlerOracle0 [Except.ok disconnectDoc] =
      [SessionEvent.closedConn, SessionEvent.disconnectNotice, SessionEvent.cancelled,
       SessionEvent.persistInvoked disconnectDoc, SessionEvent.panicked "Templates"] ∧
    SessionEvent.persistInvoked disconnectDoc ∈
      serveLoop handlerOracle0 [Except.ok disconnectDoc] := by
  have h : serveLoop handlerOracle0 [Except.ok disconnectDoc] =
      [SessionEvent.closedConn, SessionEvent.disconnectNotice, SessionEvent.cancelled,
       SessionEvent.persistInvoked disconnectDoc, SessionEvent.panicked "Templates"] := by
    simp [serveLoop, handlerOracle0, disconnectDoc, persistData, oracleAllOk]
  refine ⟨h, ?_⟩
  rw [h]
  simp

/-- Custom-text replies where the current-text read succeeds and the bulk
CDN fetch fails at the transport. -/
def ctNetFail : CustomTextResponses where
  promptText := fun _ => Except.ok (Json.obj [("title", Json.str "Sign in")])
  newRequest := none
  doResult := Except.error "network unreachable"

/-- Custom-text replies where the bulk fetch transports fine but its body
fails to decode. -/
def ctDecodeFail : CustomTextResponses where
  promptText := fun _ => Except.ok (Json.obj [("title", Json.str "Sign in")])
  newRequest := none
  doResult := Except.ok { statusCode := 200, decodeBody := Except.error "invalid JSON" }

/-- Custom-text replies where the bulk fetch returns an HTTP error
status. -/
def ctBadStatus : CustomTextResponses where
  promptText := fun _ => Except.ok (Json.obj [("title", Json.str "Sign in")])
  newRequest := none
  doResult := Except.ok { statusCode := 503, decodeBody := Except.error "unused" }

/-- Aggregator replies in which every read succeeds except that the bulk
default-text fetch fails at the transport. -/
def fetchNetFail : FetchResponses where
  customDomainCheck := none
  promptRead := Except.ok ⟨"profile"⟩
  brandingValue := ⟨none, "branding"⟩
  templateValue := ⟨some "body"⟩
  themeRead := Except.ok defaultTheme
  tenantRead := Except.ok ⟨some "Acme", some ["en"]⟩
  ct := ctNetFail

/-- C2 (counterexample): a transport failure of the bulk default fetch is
returned as a NON-nil error alongside the collected text (`return
customText, err` with `err ≠ nil`), and that error aborts the whole
aggregation — refuting "returns the current text collected so far with no
error, so aggregation does not abort". -/
theorem c2_counterexample :
    fetchCustomTextWithDefaults ctNetFail =
      (some [("login", Json.obj [("title", Json.str "Sign in")])],
        some "network unreachable") ∧
    fetchPageData fetchNetFail "acme.example.com" = Except.error "network unreachable" := by
  constructor
  · simp [fetchCustomTextWithDefaults, ctNetFail, collectPromptText, availablePrompts]
  · simp [fetchPageData, fetchNetFail, fetchCustomTextWithDefaults, ctNetFail,
      collectPromptText, availablePrompts]

/-- C2 (amended): when the per-prompt reads succeed, the request-creation,
transport and decode failures of the bulk default fetch each return the
collected current text TOGETHER WITH the error (so the aggregation
aborts with that error); only an HTTP error status (≥ 400) is silently
tolerated, returning the collected text with no error. -/
theorem c2_bulk_fetch_error_propagation (o : CustomTextResponses) (t : Json)
    (hp : o.promptText "login" = Except.ok t) :
    (∀ e, o.newRequest = some e →
      fetchCustomTextWithDefaults o = (some [("login", t)], some e)) ∧
    (o.newRequest = none → ∀ e, o.doResult = Except.error e →
      fetchCustomTextWithDefaults o = (some [("login", t)], some e)) ∧
    (o.newRequest = none → ∀ resp, o.doResult = Except.ok resp → 400 ≤ resp.statusCode →
      fetchCustomTextWithDefaults o = (some [("login", t)], none)) ∧
    (o.newRequest = none → ∀ resp e, o.doResult = Except.ok resp → resp.statusCode < 400 →
      resp.decodeBody = Except.error e →
      fetchCustomTextWithDefaults o = (some [("login", t)], some e)) ∧
    (∀ (fo : FetchResponses) (dom : String) (pr : Prompt) (tn : Tenant) (e : GErr),
      fo.customDomainCheck = none → fo.promptRead = Except.ok pr →
      fo.tenantRead = Except.ok tn → (fetchCustomTextWithDefaults fo.ct).2 = some e →
      fetchPageData fo dom = Except.error e) := by
  refine ⟨?_, ?_, ?_, ?_, ?_⟩
  · intro e he
    simp [fetchCustomTextWithDefaults, availablePrompts, collectPromptText, hp, he]
  · intro hn e he
    simp [fetchCustomTextWithDefaults, availablePrompts, collectPromptText, hp, hn, he]
  · intro hn resp hr hs
    simp [fetchCustomTextWithDefaults, availablePrompts, collectPromptText, hp, hn, hr, hs]
  · intro hn resp e hr hs hd
    simp [fetchCustomTextWithDefaults, availablePrompts, collectPromptText, hp, hn, hr,
      Nat.not_le.mpr hs, hd]
  · intro fo dom pr tn e hcd hpr htn hct
    cases hres : fetchCustomTextWithDefaults fo.ct with
    | mk ctv errv =>
      rw [hres] at hct
      simp only at hct
      subst hct
      simp [fetchPageData, hcd, hpr, htn, hres]

/-- C2 (witness): the amended theorem applied at the decode-failure
oracle (error propagated) and at the transport-failure aggregation
(aggregation aborts with the transport error). -/
theorem c2_witness :
    fetchCustomTextWithDefaults ctDecodeFail =
      (some [("login", Json.obj [("title", Json.str "Sign in")])], some "invalid JSON") ∧
    fetchPageData fetchNetFail "acme.example.com" = Except.error "network unreachable" := by
  constructor
  · exact (c2_bulk_fetch_error_propagation ctDecodeFail _ rfl).2.2.2.1 rfl
      { statusCode := 200, decodeBody := Except.error "invalid JSON" } "invalid JSON" rfl
      (by decide) rfl
  · exact (c2_bulk_fetch_error_propagation ctNetFail _ rfl).2.2.2.2 fetchNetFail
      "acme.example.com" ⟨"profile"⟩ ⟨some "Acme", some ["en"]⟩ "network unreachable"
      rfl rfl rfl rfl

/-- Aggregator replies in which the theme read fails and every aborting
read succeeds (the bulk text fetch hits an HTTP error status, which is
tolerated). -/
def fetchThemeFails : FetchResponses where
  customDomainCheck := none
  promptRead := Except.ok ⟨"profile"⟩
  brandingValue := ⟨none, "branding"⟩
  templateValue := ⟨some "body"⟩
  themeRead := Except.error "theme read failed"
  tenantRead := Except.ok ⟨some "Acme", some ["en"]⟩
  ct := ctBadStatus

/-- C6: if the theme read fails while the feature precondition, profile
read, tenant read and custom-text assembly all succeed, the aggregation
succeeds and the returned document's theme is exactly the hard-coded
default ThemeDescriptor. -/
theorem c6_theme_defaulting (o : FetchResponses) (dom : String) (e : GErr)
    (hth : o.themeRead = Except.error e) (hcd : o.customDomainCheck = none)
    (pr : Prompt) (hpr : o.promptRead = Except.ok pr)
    (tn : Tenant) (htn : o.tenantRead = Except.ok tn)
    (ct : Option (List (String × Json)))
    (hct : fetchCustomTextWithDefaults o.ct = (ct, none)) :
    ∃ d, fetchPageData o dom = Except.ok d ∧ d.themes = some defaultTheme := by
  have h : fetchPageData o dom = Except.ok
      { connected := true
        authenticationProfile := some pr
        branding := some o.brandingValue
        templates := some o.templateValue
        themes := some (fetchBrandingThemeOrUseEmpty o.themeRead)
        tenant := some
          { friendlyName := tn.friendlyName.getD ""
            enabledLocales := tn.enabledLocales.getD []
            domain := dom }
        customText := ct.getD [] } := by
    simp [fetchPageData, hcd, hpr, htn, hct]
  exact ⟨_, h, by simp [fetchBrandingThemeOrUseEmpty, hth]⟩

/-- C6 (witness): the theorem applied at a concrete reply set whose theme
read fails. -/
theorem c6_witness :
    ∃ d, fetchPageData fetchThemeFails "acme.example.com" = Except.ok d ∧
      d.themes = some defaultTheme := by
  exact c6_theme_defaulting fetchThemeFails "acme.example.com" "theme read failed" rfl rfl
    ⟨"profile"⟩ rfl ⟨some "Acme", some ["en"]⟩ rfl
    (some [("login", Json.obj [("title", Json.str "Sign in")])]) rfl

/-- C7: the origin check accepts a request with no Origin header, accepts
an origin that parses and reconstructs to exactly
`http://localhost:5173`, and rejects every origin that parses to any
other string (e.g. `http://evil.example`) as well as every unparsable
origin. -/
theorem c7_origin_check_rule :
    checkOrigin [] = true ∧
    checkOrigin ["http://localhost:5173"] = true ∧
    checkOrigin ["http://evil.example"] = false ∧
    (∀ s u, urlParse s = some u → urlString u = expectedOrigin → checkOrigin [s] = true) ∧
    (∀ s u, urlParse s = some u → urlString u ≠ expectedOrigin → checkOrigin [s] = false) ∧
    (∀ s, urlParse s = none → checkOrigin [s] = false) := by
  refine ⟨by decide, by decide, by decide, ?_, ?_, ?_⟩
  · intro s u hp he
    simp [checkOrigin, hp, he]
  · intro s u hp he
    simp [checkOrigin, hp, beq_iff_eq, he]
  · intro s hp
    simp [checkOrigin, hp]

/-- C7 (witness): the theorem's rejection clauses applied at the
well-formed foreign origin `https://other.example` and at the unparsable
origin containing a space. -/
theorem c7_witness :
    checkOrigin ["https://other.example"] = false ∧
    checkOrigin ["http://bad host"] = false := by
  constructor
  · exact c7_origin_check_rule.2.2.2.2.1 "https://other.example" ⟨"https", "other.example"⟩
      (by decide) (by decide)
  · exact c7_origin_check_rule.2.2.2.2.2 "http://bad host" (by decide)
